import Mathlib

/-!
Verification development for the nostr-proxy-relay core: the Nostr message
codec (`src/nostr`), the filter-query DSL (`src/parser`), the per-connection
filter engine (`src/filter/engine.rs`) and the WebSocket proxy pipeline
(`src/proxy/ws_proxy.rs`), shallowly embedded in Lean.

Modelling conventions:
* Rust `i64` values (event `kind`, `created_at`, safelist `flags`, the DSL
  number type) are `Int`.  The embedded code performs no `i64` arithmetic
  that can overflow (only comparisons and bit tests), with the single
  exception of integer-literal lexing, where the Rust code calls
  `str::parse::<i64>` and maps overflow to `0`; that behaviour is modelled
  explicitly in `rust_i64_of_digits`.
* External crates are parameters of the embedding: `serde_json::from_str`
  is a parameter `jp : String → Except String Json` producing a value of the
  `Json` model type; the `regex` crate and the `hex`+`bech32` npub encoding
  used inside the DSL evaluator are the fields of `ExtApi`; the
  `pubkey_hex_to_npub` helper of the engine/proxy is a parameter
  `npubOf : String → Except String String`.
* Database queries are modelled by the `Store` structure of total functions
  returning `Except String _` (an `.error` models a failed query).  The
  engine rule snapshot is modelled as the already-loaded compiled rule list
  (the 30-second reload timer is wall-clock behaviour outside the model).
* Unicode character classes used by the lexer (`char::is_whitespace`,
  `char::is_alphabetic`, `char::is_alphanumeric`, `to_lowercase`) are
  modelled by their ASCII restrictions, which agree with Rust on every
  string appearing in this development.
-/

namespace NostrProxy

/-! ## JSON values (model of the `serde_json::Value` shapes the code consumes) -/

inductive Json where
  | null : Json
  | bool (b : Bool) : Json
  | num (n : Int) : Json
  | str (s : String) : Json
  | arr (xs : List Json) : Json
  | obj (kvs : List (String × Json)) : Json
deriving Repr

def Json.asStr : Json → Option String
  | .str s => some s
  | _ => none

def Json.asBool : Json → Option Bool
  | .bool b => some b
  | _ => none

def Json.asArr : Json → Option (List Json)
  | .arr xs => some xs
  | _ => none

/-! ## Nostr event (`src/nostr/event.rs`) -/

structure Event where
  id : String
  pubkey : String
  created_at : Int
  kind : Int
  tags : List (List String)
  content : String
  sig : String
deriving Repr

/-- `Event::first_e_tag_event_id`: the first `e` tag's second element. -/
def Event.first_e_tag_event_id (ev : Event) : Option String :=
  (ev.tags.find? (fun t => t.head? == some "e")).bind (fun t => t.get? 1)

/-- serde-derived decoding of an `Event` from a JSON value (object with the
seven required fields; unknown fields ignored, first occurrence of each key
used). -/
def jGet (kvs : List (String × Json)) (k : String) : Option Json :=
  (kvs.find? (fun p => p.1 == k)).map (fun p => p.2)

def jStr : Option Json → Except String String
  | some (.str s) => .ok s
  | _ => .error "expected string"

def jInt : Option Json → Except String Int
  | some (.num n) => .ok n
  | _ => .error "expected integer"

def jStrList : Json → Except String (List String)
  | .arr xs => xs.foldr (fun x acc =>
      match x, acc with
      | .str s, .ok r => .ok (s :: r)
      | _, .error e => .error e
      | _, _ => .error "expected string") (.ok [])
  | _ => .error "expected array"

def jTags : Option Json → Except String (List (List String))
  | some (.arr xs) => xs.foldr (fun x acc =>
      match jStrList x, acc with
      | .ok t, .ok r => .ok (t :: r)
      | .error e, _ => .error e
      | _, .error e => .error e) (.ok [])
  | _ => .error "expected array"

def eventFromJson : Json → Except String Event
  | .obj kvs =>
    match jStr (jGet kvs "id"), jStr (jGet kvs "pubkey"), jInt (jGet kvs "created_at"),
          jInt (jGet kvs "kind"), jTags (jGet kvs "tags"), jStr (jGet kvs "content"),
          jStr (jGet kvs "sig") with
    | .ok i, .ok p, .ok ca, .ok k, .ok ts, .ok c, .ok sg =>
        .ok ⟨i, p, ca, k, ts, c, sg⟩
    | _, _, _, _, _, _, _ => .error "invalid event object"
  | _ => .error "expected object"

/-! ## Client message codec (`src/nostr/message.rs`) -/

inductive ClientMsg where
  | req (sub_id : String) (filters : List Json) : ClientMsg
  | close (sub_id : String) : ClientMsg
  | event (event : Event) : ClientMsg

/-- `parse_client_msg`, with `jp` standing for `serde_json::from_str`.
Error values carry the `Display` strings of `ParseClientMsgError`. -/
def parse_client_msg (jp : String → Except String Json) (text : String) :
    Except String ClientMsg :=
  match jp text with
  | .error e => .error e
  | .ok v =>
    match v.asArr with
    | none => .error "expected JSON array"
    | some arr =>
      match arr.head? with
      | none => .error "missing command"
      | some cmdv =>
        match cmdv.asStr with
        | none => .error "command must be string"
        | some cmd =>
          if cmd == "REQ" then
            match (arr.get? 1).bind Json.asStr with
            | none => .error "invalid message: REQ missing sub_id"
            | some sub_id => .ok (.req sub_id (arr.drop 2))
          else if cmd == "CLOSE" then
            match (arr.get? 1).bind Json.asStr with
            | none => .error "invalid message: CLOSE missing sub_id"
            | some sub_id => .ok (.close sub_id)
          else if cmd == "EVENT" then
            match arr.get? 1 with
            | none => .error "invalid message: EVENT missing event"
            | some evv =>
              match eventFromJson evv with
              | .error e => .error e
              | .ok ev => .ok (.event ev)
          else .error ("unsupported command: " ++ cmd)

/-! ## DSL tokens and AST (`src/parser/filter_query_ast.rs`) -/

inductive QToken where
  | ident (s : String) | str (s : String) | num (n : Int)
  | eq | ne | gt | lt | ge | le
  | containsTok | startsWithTok | endsWithTok | matchesTok
  | inTok | notInTok | existsTok
  | andTok | orTok | notTok
  | lparen | rparen | lbracket | rbracket | comma | dot
  | eof
deriving DecidableEq, Repr

/-- The `Display` impl for `Token`. -/
def QToken.render : QToken → String
  | .ident s => s
  | .str s => "\"" ++ s ++ "\""
  | .num n => toString n
  | .eq => "==" | .ne => "!=" | .gt => ">" | .lt => "<" | .ge => ">=" | .le => "<="
  | .containsTok => "contains" | .startsWithTok => "starts_with"
  | .endsWithTok => "ends_with" | .matchesTok => "matches"
  | .inTok => "in" | .notInTok => "not_in" | .existsTok => "exists"
  | .andTok => "AND" | .orTok => "OR" | .notTok => "NOT"
  | .lparen => "(" | .rparen => ")" | .lbracket => "[" | .rbracket => "]"
  | .comma => "," | .dot => "."
  | .eof => "EOF"

structure SpannedToken where
  token : QToken
  start : Nat
  stop : Nat
deriving DecidableEq, Repr

structure ParseError where
  message : String
  position : Nat
deriving DecidableEq, Repr

inductive QField where
  | simple (name : String)
  | contentLength
  | tag (tag_name : String)
  | tagCount (tag_name : String)
  | tagValue (tag_name : String)
  | referencedCreatedAt
deriving DecidableEq, Repr

/-- `Field::name`. -/
def QField.name : QField → String
  | .simple n => n
  | .contentLength => "content_length"
  | .tag tn => "tag[" ++ tn ++ "]"
  | .tagCount tn => "tag[" ++ tn ++ "].count"
  | .tagValue tn => "tag[" ++ tn ++ "].value"
  | .referencedCreatedAt => "referenced_created_at"

inductive QOperator where
  | eq | ne | gt | lt | ge | le
  | containsOp | startsWithOp | endsWithOp | matchesOp
  | inOp | notInOp | existsOp
deriving DecidableEq, Repr

inductive QValue where
  | str (s : String) : QValue
  | num (n : Int) : QValue
  | bool (b : Bool) : QValue
  | list (vs : List QValue) : QValue
  | field (f : QField) : QValue
deriving Repr

/-- `Value::is_list`. -/
def QValue.is_list : QValue → Bool
  | .list _ => true
  | _ => false

structure QCondition where
  field : QField
  op : QOperator
  value : QValue
deriving Repr

inductive QExpr where
  | and (left right : QExpr) : QExpr
  | or (left right : QExpr) : QExpr
  | not (expr : QExpr) : QExpr
  | cond (c : QCondition) : QExpr
deriving Repr

/-! ## Lexer (`src/parser/filter_query.rs`, `Lexer`)

The lexer state carries the remaining `char_indices` stream (byte position,
character), the byte position of the last consumed character (Rust's
`current_pos`, initially 0) and the total byte length of the input. -/

def char_indices_from (p : Nat) : List Char → List (Nat × Char)
  | [] => []
  | c :: cs => (p, c) :: char_indices_from (p + c.utf8Size) cs

structure LexSt where
  rest : List (Nat × Char)
  last_pos : Nat
  input_len : Nat

/-- `skip_whitespace`: the nested comment loop of the Rust code is encoded
by the `in_comment` mode flag (while in a comment, consume up to and
including the next newline, then resume whitespace skipping). -/
def skip_ws_aux : Bool → List (Nat × Char) → Nat → List (Nat × Char) × Nat
  | _, [], lp => ([], lp)
  | true, (p, c) :: r, _ =>
    if c == '\n' then skip_ws_aux false r p else skip_ws_aux true r p
  | false, (p, c) :: r, lp =>
    if c.isWhitespace then skip_ws_aux false r p
    else if c == '#' then skip_ws_aux true r p
    else ((p, c) :: r, lp)

def skip_ws (l : List (Nat × Char)) (lp : Nat) : List (Nat × Char) × Nat :=
  skip_ws_aux false l lp

/-- The loop of `read_string` (the opening quote is consumed by the caller).
`start` is Rust's `current_pos` as sampled before the opening quote was
consumed (used by the `Unterminated string` error). Returns the string, the
remaining stream and the position of the closing quote. -/
def read_string_loop : List (Nat × Char) → Nat → String →
    Except ParseError (String × List (Nat × Char) × Nat)
  | [], start, _ => .error ⟨"Unterminated string", start⟩
  | (p, c) :: r, start, acc =>
    if c == '"' then .ok (acc, r, p)
    else if c == '\\' then
      match r with
      | [] => .error ⟨"Unterminated string", start⟩
      | (p2, c2) :: r2 =>
        if c2 == 'n' then read_string_loop r2 start (acc.push '\n')
        else if c2 == 't' then read_string_loop r2 start (acc.push '\t')
        else if c2 == 'r' then read_string_loop r2 start (acc.push '\r')
        else if c2 == '\\' then read_string_loop r2 start (acc.push '\\')
        else if c2 == '"' then read_string_loop r2 start (acc.push '"')
        else .error ⟨"Unknown escape sequence: \\" ++ String.singleton c2, p2⟩
    else read_string_loop r start (acc.push c)

/-- Digit run consumed by `read_number`. Returns the digit characters, the
remaining stream and the final `current_pos`. -/
def take_digits : List (Nat × Char) → Nat → List Char × List (Nat × Char) × Nat
  | [], lp => ([], [], lp)
  | (p, c) :: r, lp =>
    if c.isDigit then
      match take_digits r p with
      | (ds, r', lp') => (c :: ds, r', lp')
    else ([], (p, c) :: r, lp)

/-- Rust `digit_string.parse::<i64>().unwrap_or(0)`: a digit string whose
value exceeds `i64::MAX` parses to 0. -/
def rust_i64_of_digits (ds : List Char) : Int :=
  let n : Nat := ds.foldl (fun a c => a * 10 + (c.toNat - 48)) 0
  if n ≤ 9223372036854775807 then (n : Int) else 0

/-- `read_number` (optional leading minus, then digits). -/
def read_number : List (Nat × Char) → Nat → Int × List (Nat × Char) × Nat
  | (p, '-') :: r, _ =>
    match take_digits r p with
    | (ds, r', lp') => (-(rust_i64_of_digits ds), r', lp')
  | l, lp =>
    match take_digits l lp with
    | (ds, r', lp') => (rust_i64_of_digits ds, r', lp')

/-- `read_ident`: consume alphanumerics and underscores (accumulated as a
character list; the caller builds the string). -/
def read_ident_chars : List (Nat × Char) → Nat →
    List Char × List (Nat × Char) × Nat
  | [], lp => ([], [], lp)
  | (p, c) :: r, lp =>
    if c.isAlphanum || c == '_' then
      match read_ident_chars r p with
      | (cs, r', lp') => (c :: cs, r', lp')
    else ([], (p, c) :: r, lp)

/-- `read_ident`. -/
def read_ident (l : List (Nat × Char)) (lp : Nat) :
    String × List (Nat × Char) × Nat :=
  match read_ident_chars l lp with
  | (cs, r', lp') => (String.mk cs, r', lp')

/-- ASCII lowercase of a string (Rust `str::to_lowercase`, ASCII model). -/
def str_lower (s : String) : String := String.mk (s.data.map Char.toLower)

/-- Keyword table at the end of `next_token`. -/
def keyword_token (s : String) : QToken :=
  let l := str_lower s
  if l == "and" then .andTok
  else if l == "or" then .orTok
  else if l == "not" then .notTok
  else if l == "contains" then .containsTok
  else if l == "starts_with" then .startsWithTok
  else if l == "ends_with" then .endsWithTok
  else if l == "matches" then .matchesTok
  else if l == "in" then .inTok
  else if l == "not_in" then .notInTok
  else if l == "exists" then .existsTok
  else if l == "true" then .ident "true"
  else if l == "false" then .ident "false"
  else .ident s

/-- Core of `next_token` after whitespace skipping: produces the token, the
remaining stream and the new `current_pos`. `start` is the byte position of
the first unconsumed character (or the input length at end of input). -/
def next_token_core (rest : List (Nat × Char)) (lp start : Nat) :
    Except ParseError (QToken × List (Nat × Char) × Nat) :=
  match rest with
  | [] => .ok (.eof, [], lp)
  | (p, c) :: r =>
    if c == '"' then
      -- read_string samples `current_pos` before consuming the quote
      match read_string_loop r lp "" with
      | .error e => .error e
      | .ok (s, r', cp) => .ok (.str s, r', cp)
    else if c.isDigit
        || (c == '-' && (match r with | (_, d) :: _ => d.isDigit | [] => false)) then
      match read_number ((p, c) :: r) lp with
      | (n, r', lp') => .ok (.num n, r', lp')
    else if c == '(' then .ok (.lparen, r, p)
    else if c == ')' then .ok (.rparen, r, p)
    else if c == '[' then .ok (.lbracket, r, p)
    else if c == ']' then .ok (.rbracket, r, p)
    else if c == ',' then .ok (.comma, r, p)
    else if c == '.' then .ok (.dot, r, p)
    else if c == '=' then
      match r with
      | (p2, '=') :: r2 => .ok (.eq, r2, p2)
      | _ => .error ⟨"Expected \x27==\x27 but got \x27=\x27", start⟩
    else if c == '!' then
      match r with
      | (p2, '=') :: r2 => .ok (.ne, r2, p2)
      | _ => .error ⟨"Expected \x27!=\x27 but got \x27!\x27", start⟩
    else if c == '>' then
      match r with
      | (p2, '=') :: r2 => .ok (.ge, r2, p2)
      | _ => .ok (.gt, r, p)
    else if c == '<' then
      match r with
      | (p2, '=') :: r2 => .ok (.le, r2, p2)
      | _ => .ok (.lt, r, p)
    else if c.isAlpha || c == '_' then
      match read_ident ((p, c) :: r) lp with
      | (s, r', lp') => .ok (keyword_token s, r', lp')
    else .error ⟨"Unexpected character: \x27" ++ String.singleton c ++ "\x27", start⟩

/-- `Lexer::next_token`. -/
def next_token (st : LexSt) : Except ParseError (SpannedToken × LexSt) :=
  match skip_ws st.rest st.last_pos with
  | (rest, lp) =>
    match rest with
    | [] =>
      match next_token_core [] lp st.input_len with
      | .error e => .error e
      | .ok (tok, rest', lp') =>
        .ok (⟨tok, st.input_len, st.input_len⟩, ⟨rest', lp', st.input_len⟩)
    | (p0, c0) :: rest0 =>
      match next_token_core ((p0, c0) :: rest0) lp p0 with
      | .error e => .error e
      | .ok (tok, rest', lp') =>
        match rest' with
        | [] => .ok (⟨tok, p0, st.input_len⟩, ⟨[], lp', st.input_len⟩)
        | (q, d) :: rest'' =>
          .ok (⟨tok, p0, q⟩, ⟨(q, d) :: rest'', lp', st.input_len⟩)

/-- `Lexer::tokenize` loop (fuel-indexed; the fuel passed by `tokenize`
exceeds the number of tokens, which is bounded by the character count). -/
def tokenize_loop : Nat → LexSt → List SpannedToken →
    Except ParseError (List SpannedToken)
  | 0, _, _ => .error ⟨"token fuel exhausted", 0⟩
  | f + 1, st, acc =>
    match next_token st with
    | .error e => .error e
    | .ok (t, st') =>
      if t.token == .eof then .ok (acc ++ [t])
      else tokenize_loop f st' (acc ++ [t])

/-- `Lexer::tokenize`. -/
def tokenize (input : String) : Except ParseError (List SpannedToken) :=
  tokenize_loop (input.data.length + 2)
    ⟨char_indices_from 0 input.data, 0, input.utf8ByteSize⟩ []

/-! ## Parser (`src/parser/filter_query.rs`, `Parser`)

The Rust parser keeps a token vector and a cursor; `current()` clamps the
cursor to the last token (the `Eof` token produced by the lexer) and
`advance()` never moves past it.  The mutually recursive procedures are
fuel-indexed; `parse_tokens` supplies fuel larger than the recursion depth,
which is bounded by the token count (each nesting level of the grammar
consumes at least one token). -/

/-- `Parser::current`: the token vector is passed as a fixed context and
the cursor clamps to the last token (the trailing `Eof`). -/
def tok_at (tokens : List SpannedToken) (pos : Nat) : SpannedToken :=
  tokens.getD (min pos (tokens.length - 1)) ⟨.eof, 0, 0⟩

/-- `Parser::peek`. -/
def peek_token (tokens : List SpannedToken) (pos : Nat) : QToken :=
  (tok_at tokens pos).token

/-- The cursor movement of `Parser::advance` (which never moves past the
last token). -/
def adv (tokens : List SpannedToken) (pos : Nat) : Nat :=
  if pos < tokens.length - 1 then pos + 1 else pos

/-- `Parser::expect`. -/
def expect (tokens : List SpannedToken) (pos : Nat) (t : QToken) :
    Except ParseError Nat :=
  match tok_at tokens pos with
  | ⟨tk, tstart, _⟩ =>
    if tk == t then .ok (adv tokens pos)
    else .error ⟨"Expected \x27" ++ t.render ++ "\x27 but got \x27" ++
        tk.render ++ "\x27", tstart⟩

/-- `Parser::parse_field`. -/
def parse_field (tokens : List SpannedToken) (pos : Nat) :
    Except ParseError (QField × Nat) :=
  match tok_at tokens pos with
  | ⟨tk, tstart, _⟩ =>
    match tk with
    | .ident name =>
      if name == "content_length" then .ok (.contentLength, adv tokens pos)
      else if name == "referenced_created_at" then
        .ok (.referencedCreatedAt, adv tokens pos)
      else if name == "tag" then
        match expect tokens (adv tokens pos) .lbracket with
        | .error e => .error e
        | .ok p1 =>
          match (match (tok_at tokens p1).token with
                 | .ident s => some s
                 | .str s => some s
                 | _ => none) with
          | none => .error ⟨"Expected tag name", (tok_at tokens (adv tokens p1)).start⟩
          | some tag_name =>
            match expect tokens (adv tokens p1) .rbracket with
            | .error e => .error e
            | .ok p2 =>
              if peek_token tokens p2 == .dot then
                match (tok_at tokens (adv tokens p2)).token with
                | .ident prop =>
                  if prop == "count" then
                    .ok (.tagCount tag_name, adv tokens (adv tokens (adv tokens p2)))
                  else if prop == "value" then
                    .ok (.tagValue tag_name, adv tokens (adv tokens (adv tokens p2)))
                  else .error ⟨"Unknown tag property: \x27" ++ prop ++ "\x27",
                      (tok_at tokens (adv tokens (adv tokens (adv tokens p2)))).start⟩
                | _ => .error ⟨"Expected \x27count\x27 or \x27value\x27 after \x27.\x27",
                    (tok_at tokens (adv tokens (adv tokens (adv tokens p2)))).start⟩
              else .ok (.tag tag_name, p2)
      else .ok (.simple name, adv tokens pos)
    | _ => .error ⟨"Expected field name but got \x27" ++ tk.render ++ "\x27", tstart⟩

/-- `Parser::parse_operator`. -/
def parse_operator (tokens : List SpannedToken) (pos : Nat) :
    Except ParseError (QOperator × Nat) :=
  match tok_at tokens pos with
  | ⟨tk, tstart, _⟩ =>
    match tk with
    | .eq => .ok (.eq, adv tokens pos)
    | .ne => .ok (.ne, adv tokens pos)
    | .gt => .ok (.gt, adv tokens pos)
    | .lt => .ok (.lt, adv tokens pos)
    | .ge => .ok (.ge, adv tokens pos)
    | .le => .ok (.le, adv tokens pos)
    | .containsTok => .ok (.containsOp, adv tokens pos)
    | .startsWithTok => .ok (.startsWithOp, adv tokens pos)
    | .endsWithTok => .ok (.endsWithOp, adv tokens pos)
    | .matchesTok => .ok (.matchesOp, adv tokens pos)
    | .inTok => .ok (.inOp, adv tokens pos)
    | .notInTok => .ok (.notInOp, adv tokens pos)
    | .existsTok => .ok (.existsOp, adv tokens pos)
    | _ => .error ⟨"Expected operator but got \x27" ++ tk.render ++ "\x27", tstart⟩

def fuel_error : ParseError := ⟨"recursion fuel exhausted", 0⟩

mutual

/-- `Parser::parse_value`. -/
def parse_value (tokens : List SpannedToken) : Nat → Nat →
    Except ParseError (QValue × Nat)
  | 0, _ => .error fuel_error
  | f + 1, pos =>
    match tok_at tokens pos with
    | ⟨tk, tstart, _⟩ =>
      match tk with
      | .str s => .ok (.str s, adv tokens pos)
      | .num n => .ok (.num n, adv tokens pos)
      | .ident s =>
        if s == "true" then .ok (.bool true, adv tokens pos)
        else if s == "false" then .ok (.bool false, adv tokens pos)
        else
          match parse_field tokens pos with
          | .error e => .error e
          | .ok (fld, p1) => .ok (.field fld, p1)
      | .lbracket =>
        if peek_token tokens (adv tokens pos) == .rbracket then
          match expect tokens (adv tokens pos) .rbracket with
          | .error e => .error e
          | .ok p2 => .ok (.list [], p2)
        else
          match parse_value tokens f (adv tokens pos) with
          | .error e => .error e
          | .ok (v, p2) =>
            match parse_value_list_loop tokens f [v] p2 with
            | .error e => .error e
            | .ok (vs, p3) =>
              match expect tokens p3 .rbracket with
              | .error e => .error e
              | .ok p4 => .ok (.list vs, p4)
      | _ => .error ⟨"Expected value but got \x27" ++ tk.render ++ "\x27", tstart⟩

/-- The comma loop inside `parse_value` for lists. -/
def parse_value_list_loop (tokens : List SpannedToken) : Nat → List QValue →
    Nat → Except ParseError (List QValue × Nat)
  | 0, _, _ => .error fuel_error
  | f + 1, acc, pos =>
    if peek_token tokens pos == .comma then
      match parse_value tokens f (adv tokens pos) with
      | .error e => .error e
      | .ok (v, p1) => parse_value_list_loop tokens f (acc ++ [v]) p1
    else .ok (acc, pos)

end

/-- `Parser::parse_condition` (field, operator, value). -/
def parse_condition (tokens : List SpannedToken) (f : Nat) (pos : Nat) :
    Except ParseError (QExpr × Nat) :=
  match parse_field tokens pos with
  | .error e => .error e
  | .ok (fld, p1) =>
    match parse_operator tokens p1 with
    | .error e => .error e
    | .ok (op, p2) =>
      match parse_value tokens f p2 with
      | .error e => .error e
      | .ok (v, p3) => .ok (.cond ⟨fld, op, v⟩, p3)

mutual

/-- `Parser::parse_or_expr`. -/
def parse_or_expr (tokens : List SpannedToken) : Nat → Nat →
    Except ParseError (QExpr × Nat)
  | 0, _ => .error fuel_error
  | f + 1, pos =>
    match parse_and_expr tokens f pos with
    | .error e => .error e
    | .ok (l, p1) => parse_or_loop tokens f l p1
termination_by structural f => f

def parse_or_loop (tokens : List SpannedToken) : Nat → QExpr → Nat →
    Except ParseError (QExpr × Nat)
  | 0, _, _ => .error fuel_error
  | f + 1, l, pos =>
    if peek_token tokens pos == .orTok then
      match parse_and_expr tokens f (adv tokens pos) with
      | .error e => .error e
      | .ok (r, p1) => parse_or_loop tokens f (.or l r) p1
    else .ok (l, pos)
termination_by structural f => f

/-- `Parser::parse_and_expr`. -/
def parse_and_expr (tokens : List SpannedToken) : Nat → Nat →
    Except ParseError (QExpr × Nat)
  | 0, _ => .error fuel_error
  | f + 1, pos =>
    match parse_not_expr tokens f pos with
    | .error e => .error e
    | .ok (l, p1) => parse_and_loop tokens f l p1
termination_by structural f => f

def parse_and_loop (tokens : List SpannedToken) : Nat → QExpr → Nat →
    Except ParseError (QExpr × Nat)
  | 0, _, _ => .error fuel_error
  | f + 1, l, pos =>
    if peek_token tokens pos == .andTok then
      match parse_not_expr tokens f (adv tokens pos) with
      | .error e => .error e
      | .ok (r, p1) => parse_and_loop tokens f (.and l r) p1
    else .ok (l, pos)
termination_by structural f => f

/-- `Parser::parse_not_expr`. -/
def parse_not_expr (tokens : List SpannedToken) : Nat → Nat →
    Except ParseError (QExpr × Nat)
  | 0, _ => .error fuel_error
  | f + 1, pos =>
    if peek_token tokens pos == .notTok then
      match parse_not_expr tokens f (adv tokens pos) with
      | .error e => .error e
      | .ok (e, p1) => .ok (.not e, p1)
    else parse_primary tokens f pos
termination_by structural f => f

/-- `Parser::parse_primary`. -/
def parse_primary (tokens : List SpannedToken) : Nat → Nat →
    Except ParseError (QExpr × Nat)
  | 0, _ => .error fuel_error
  | f + 1, pos =>
    if peek_token tokens pos == .lparen then
      match parse_or_expr tokens f (adv tokens pos) with
      | .error e => .error e
      | .ok (e, p1) =>
        match expect tokens p1 .rparen with
        | .error e' => .error e'
        | .ok p2 => .ok (e, p2)
    else parse_condition tokens f pos
termination_by structural f => f

end

/-- `Parser::parse` (whole-expression entry plus trailing-token check). -/
def parse_tokens (tokens : List SpannedToken) : Except ParseError QExpr :=
  match parse_or_expr tokens (tokens.length * 8 + 16) 0 with
  | .error e => .error e
  | .ok (e, pos) =>
    match tok_at tokens pos with
    | ⟨tk, tstart, _⟩ =>
      if tk == .eof then .ok e
      else .error ⟨"Unexpected token: \x27" ++ tk.render ++ "\x27", tstart⟩

/-- Top-level `parse` (lex then parse). -/
def parseQuery (input : String) : Except ParseError QExpr :=
  match tokenize input with
  | .error e => .error e
  | .ok ts => parse_tokens ts

/-! ## Compiler and evaluator (`src/parser/filter_query.rs`, `CompiledFilter`)

External crates are parameters collected in `ExtApi`:
* `new_regex` models `regex::Regex::new` (validity check; `.error` carries
  the regex error message),
* `regex_is_match pat s` models `Regex::new(pat).unwrap().is_match(s)` —
  the Rust code memoizes compiled regexes keyed by the exact pattern string,
  so the pattern determines the automaton and the cache is modelled as the
  list of patterns that have been compiled,
* `npub_encode` models the `hex::decode` + `bech32::encode` pipeline used
  by the `npub` field (`None` models a failing hex decode). -/

structure ExtApi where
  new_regex : String → Except String Unit
  regex_is_match : String → String → Bool
  npub_encode : String → Option String

/-- The per-connection kind-1 context cache, `HashMap<String, i64>` in Rust,
modelled as an association list with insert-replaces semantics. -/
abbrev Kind1Cache := List (String × Int)

/-- `HashMap::get`. -/
def cache_get (c : Kind1Cache) (k : String) : Option Int :=
  (c.find? (fun p => p.1 == k)).map (fun p => p.2)

/-- `HashMap::insert` (replaces the value under an existing key). -/
def cache_insert : Kind1Cache → String → Int → Kind1Cache
  | [], k, v => [(k, v)]
  | (k0, v0) :: r, k, v =>
    if k0 == k then (k, v) :: r else (k0, v0) :: cache_insert r k v

structure CompiledFilter where
  ast : QExpr
  regex_cache : List String
deriving Repr

/-- `CompiledFilter::compile_regexes`: walk the AST and register every
string pattern of a `matches` operator. -/
def compile_regexes (api : ExtApi) : QExpr → List String →
    Except ParseError (List String)
  | .and l r, cache | .or l r, cache =>
    match compile_regexes api l cache with
    | .error e => .error e
    | .ok c1 => compile_regexes api r c1
  | .not e, cache => compile_regexes api e cache
  | .cond c, cache =>
    if c.op == .matchesOp then
      match c.value with
      | .str pat =>
        if cache.contains pat then .ok cache
        else
          match api.new_regex pat with
          | .ok _ => .ok (cache ++ [pat])
          | .error e => .error ⟨"Invalid regex: " ++ e, 0⟩
      | _ => .ok cache
    else .ok cache

/-- `CompiledFilter::compile`. -/
def CompiledFilter.compile (api : ExtApi) (ast : QExpr) :
    Except ParseError CompiledFilter :=
  match compile_regexes api ast [] with
  | .error e => .error e
  | .ok c => .ok ⟨ast, c⟩

/-- Internal `FieldValue` enum. -/
inductive FieldValue where
  | fstr (s : String)
  | fnum (n : Int)
  | fbool (b : Bool)
deriving DecidableEq, Repr

/-- Contiguous-sublist test used to model Rust `str::contains`. -/
def list_infix_of (needle : List Char) : List Char → Bool
  | [] => needle.isEmpty
  | c :: t => needle.isPrefixOf (c :: t) || list_infix_of needle t

/-- Byte-level lowercase substring test: Rust
`s.to_lowercase().contains(&pattern.to_lowercase())` (ASCII model). -/
def str_contains (hay needle : String) : Bool :=
  list_infix_of needle.data hay.data

/-- `CompiledFilter::get_field_value`. -/
def get_field_value (api : ExtApi) (f : QField) (ev : Event)
    (kind1_cache : Kind1Cache) : Option FieldValue :=
  match f with
  | .simple name =>
    if name == "id" then some (.fstr ev.id)
    else if name == "pubkey" then some (.fstr ev.pubkey)
    else if name == "npub" then (api.npub_encode ev.pubkey).map .fstr
    else if name == "kind" then some (.fnum ev.kind)
    else if name == "created_at" then some (.fnum ev.created_at)
    else if name == "content" then some (.fstr ev.content)
    else none
  | .contentLength => some (.fnum (ev.content.utf8ByteSize : Int))
  | .tag tn =>
    if ev.tags.any (fun t => t.head? == some tn) then some (.fbool true)
    else none
  | .tagCount tn =>
    some (.fnum ((ev.tags.filter (fun t => t.head? == some tn)).length : Int))
  | .tagValue tn =>
    ((ev.tags.find? (fun t => t.head? == some tn)).bind (fun t => t.get? 1)).map
      .fstr
  | .referencedCreatedAt =>
    (ev.first_e_tag_event_id.bind (cache_get kind1_cache)).map .fnum

/-- `CompiledFilter::compare_eq`. -/
def compare_eq (api : ExtApi) (fv : FieldValue) (v : QValue) (ev : Event)
    (kind1_cache : Kind1Cache) : Bool :=
  match fv, v with
  | .fstr a, .str b => a == b
  | .fnum a, .num b => a == b
  | .fbool a, .bool b => a == b
  | .fnum a, .field f =>
    match get_field_value api f ev kind1_cache with
    | some (.fnum b) => a == b
    | _ => false
  | .fstr a, .field f =>
    match get_field_value api f ev kind1_cache with
    | some (.fstr b) => a == b
    | _ => false
  | _, _ => false

/-- `CompiledFilter::compare_numeric`. -/
def compare_numeric (api : ExtApi) (fv : FieldValue) (v : QValue) (ev : Event)
    (kind1_cache : Kind1Cache) (cmp : Int → Int → Bool) : Bool :=
  match fv, v with
  | .fnum a, .num b => cmp a b
  | .fnum a, .field f =>
    match get_field_value api f ev kind1_cache with
    | some (.fnum b) => cmp a b
    | _ => false
  | _, _ => false

/-- `CompiledFilter::compare` (`rc` is the compiled-regex cache of the
filter). -/
def compare (api : ExtApi) (rc : List String) (fv : FieldValue) (op : QOperator)
    (v : QValue) (ev : Event) (kind1_cache : Kind1Cache) : Bool :=
  match op with
  | .eq => compare_eq api fv v ev kind1_cache
  | .ne => !(compare_eq api fv v ev kind1_cache)
  | .gt => compare_numeric api fv v ev kind1_cache (fun a b => decide (a > b))
  | .lt => compare_numeric api fv v ev kind1_cache (fun a b => decide (a < b))
  | .ge => compare_numeric api fv v ev kind1_cache (fun a b => decide (a ≥ b))
  | .le => compare_numeric api fv v ev kind1_cache (fun a b => decide (a ≤ b))
  | .containsOp =>
    match fv, v with
    | .fstr s, .str pat => str_contains (str_lower s) (str_lower pat)
    | _, _ => false
  | .startsWithOp =>
    match fv, v with
    | .fstr s, .str pat => (str_lower pat).data.isPrefixOf (str_lower s).data
    | _, _ => false
  | .endsWithOp =>
    match fv, v with
    | .fstr s, .str pat => (str_lower pat).data.isSuffixOf (str_lower s).data
    | _, _ => false
  | .matchesOp =>
    match fv, v with
    | .fstr s, .str pat =>
      if rc.contains pat then api.regex_is_match pat s else false
    | _, _ => false
  | .inOp =>
    match v with
    | .list l => l.any (fun x => compare_eq api fv x ev kind1_cache)
    | _ => false
  | .notInOp =>
    match v with
    | .list l => !(l.any (fun x => compare_eq api fv x ev kind1_cache))
    | _ => true
  | .existsOp => true

/-- `CompiledFilter::evaluate_condition`. -/
def evaluate_condition (api : ExtApi) (rc : List String) (c : QCondition)
    (ev : Event) (kind1_cache : Kind1Cache) : Bool :=
  let fv := get_field_value api c.field ev kind1_cache
  match c.op with
  | .existsOp => fv.isSome
  | _ =>
    match fv with
    | none => false
    | some f => compare api rc f c.op c.value ev kind1_cache

/-- `CompiledFilter::evaluate`. -/
def evaluate (api : ExtApi) (rc : List String) :
    QExpr → Event → Kind1Cache → Bool
  | .and l r, ev, c => evaluate api rc l ev c && evaluate api rc r ev c
  | .or l r, ev, c => evaluate api rc l ev c || evaluate api rc r ev c
  | .not e, ev, c => !(evaluate api rc e ev c)
  | .cond cnd, ev, c => evaluate_condition api rc cnd ev c

/-- `CompiledFilter::matches`. -/
def CompiledFilter.matches (api : ExtApi) (f : CompiledFilter) (ev : Event)
    (kind1_cache : Kind1Cache) : Bool :=
  evaluate api f.regex_cache f.ast ev kind1_cache

/-- Top-level `compile` (parse then compile). -/
def compileQuery (api : ExtApi) (input : String) :
    Except ParseError CompiledFilter :=
  match parseQuery input with
  | .error e => .error e
  | .ok ast => CompiledFilter.compile api ast

/-! ## Validation API (`validate` and `extract_fields`) -/

/-- Adjacent-duplicate removal, Rust `Vec::dedup`. -/
def dedup_adjacent : List String → List String
  | [] => []
  | [a] => [a]
  | a :: b :: r =>
    if a == b then dedup_adjacent (b :: r) else a :: dedup_adjacent (b :: r)

/-- `extract_fields_recursive` (append-order traversal). -/
def extract_fields_rec : QExpr → List String
  | .and l r | .or l r => extract_fields_rec l ++ extract_fields_rec r
  | .not e => extract_fields_rec e
  | .cond c =>
    [c.field.name] ++
      (match c.value with
       | .field f => [f.name]
       | _ => [])

/-- `extract_fields`: collect, sort, dedup. -/
def extract_fields (e : QExpr) : List String :=
  dedup_adjacent ((extract_fields_rec e).mergeSort (fun a b => a ≤ b))

structure ValidationResult where
  valid : Bool
  ast : Option QExpr
  fields_used : Option (List String)
  error : Option String
  position : Option Nat

/-- `ValidationResult::success`. -/
def validation_success (ast : QExpr) (fields : List String) : ValidationResult :=
  ⟨true, some ast, some fields, none, none⟩

/-- `ValidationResult::error`. -/
def validation_failure (msg : String) (pos : Nat) : ValidationResult :=
  ⟨false, none, none, some msg, some pos⟩

/-- Top-level `validate` (lex, parse, compile; on success list the fields
used). -/
def validateQuery (api : ExtApi) (input : String) : ValidationResult :=
  match parseQuery input with
  | .ok ast =>
    match CompiledFilter.compile api ast with
    | .ok _ => validation_success ast (extract_fields ast)
    | .error e => validation_failure e.message e.position
  | .error e => validation_failure e.message e.position

/-! ## Filter engine (`src/filter/engine.rs`)

The database is modelled by `Store`: one total function per SQL query shape
appearing in the source, each returning `Except String _` where `.error`
models a failed query.  `rules` is the engine's compiled-rule snapshot
(`compiled_rules` after a successful `reload_rules`; rows that fail to
compile are already absent, as they are skipped at load).  `log_result` is
the outcome of the `INSERT INTO event_rejection_logs` statement; rejection
reasons are recorded structurally via `RejectReason`. -/

/-- The canonical rejection reasons (§6.4), `filter_rule:<id>` carrying the
rule id. -/
inductive RejectReason where
  | banned_npub
  | kind_blacklist
  | bot_filter
  | not_in_safelist
  | filter_rule (id : Int)
deriving DecidableEq, Repr

/-- Wire string of a rejection reason, as written to `event_rejection_logs`. -/
def RejectReason.render : RejectReason → String
  | .banned_npub => "banned_npub"
  | .kind_blacklist => "kind_blacklist"
  | .bot_filter => "bot_filter"
  | .not_in_safelist => "not_in_safelist"
  | .filter_rule i => "filter_rule:" ++ toString i

/-- A compiled rule of the snapshot (`CachedRule`; the name only feeds
logging). -/
structure CachedRule where
  id : Int
  name : String
  filter : CompiledFilter

structure Store where
  /-- `SELECT flags FROM safelist WHERE npub = ?`. -/
  safelist_flags : String → Except String (Option Int)
  /-- `SELECT banned FROM safelist WHERE npub = ?`. -/
  safelist_banned : String → Except String (Option Int)
  /-- `is_kind_blacklisted` (single-value query `OR` range query). -/
  kind_blacklisted : Int → Except String Bool
  /-- The engine's compiled-rule snapshot, in `(rule_order ASC, id ASC)`
  order. -/
  rules : List CachedRule
  /-- Outcome of inserting one row into `event_rejection_logs`. -/
  log_result : Except String Unit

/-- `is_filter_bypass` (`flags & 2 == 2`; the npub conversion error
propagates). -/
def is_filter_bypass (st : Store) (npubOf : String → Except String String)
    (pubkey_hex : String) : Except String Bool :=
  match npubOf pubkey_hex with
  | .error e => .error e
  | .ok npub =>
    match st.safelist_flags npub with
    | .error e => .error e
    | .ok row => .ok ((row.map (fun flags => flags.land 2 == 2)).getD false)

/-- `is_npub_banned` (`banned == 1` on the dedicated `banned` column; the
npub conversion error propagates). -/
def is_npub_banned (st : Store) (npubOf : String → Except String String)
    (pubkey_hex : String) : Except String Bool :=
  match npubOf pubkey_hex with
  | .error e => .error e
  | .ok npub =>
    match st.safelist_banned npub with
    | .error e => .error e
    | .ok row => .ok ((row.map (fun banned => banned == 1)).getD false)

/-- `log_rejection` of the engine: the failed insert is surfaced as
`anyhow!("Failed to log rejection: ...")`. -/
def log_rejection_result (st : Store) : Except String Unit :=
  match st.log_result with
  | .ok _ => .ok ()
  | .error e => .error ("Failed to log rejection: " ++ e)

/-- `check_filter_rules` body after the bypass check: first matching rule
logs `filter_rule:<id>` and drops. -/
def check_rules_list (api : ExtApi) (st : Store) (cache : Kind1Cache)
    (ev : Event) : List CachedRule → Except String (Bool × List RejectReason)
  | [] => .ok (false, [])
  | r :: rs =>
    if r.filter.matches api ev cache then
      match log_rejection_result st with
      | .error e => .error e
      | .ok _ => .ok (true, [.filter_rule r.id])
    else check_rules_list api st cache ev rs

/-- `check_filter_rules` (the 30-second snapshot reload is modelled as the
already-loaded `st.rules`). -/
def check_filter_rules (api : ExtApi) (st : Store)
    (npubOf : String → Except String String) (cache : Kind1Cache) (ev : Event) :
    Except String (Bool × List RejectReason) :=
  match is_filter_bypass st npubOf ev.pubkey with
  | .error e => .error e
  | .ok true => .ok (false, [])
  | .ok false => check_rules_list api st cache ev st.rules

/-- Result of one engine invocation: the `anyhow::Result<bool>` returned to
the caller, the kind-1 cache as mutated up to the return point, the
`(id, created_at)` pairs inserted into the cache, and the rejection-log rows
successfully written. -/
structure EngineStep where
  res : Except String Bool
  cache : Kind1Cache
  inserts : List (String × Int)
  logs : List RejectReason
deriving Repr

/-- Tail of `should_drop_backend_text_with_ip` after the kind-1 cache step:
`cache1` is the cache as mutated by that step and `ins` the pairs it
inserted (the rule check and the legacy bot filter both read `cache1`). -/
def process_after_cache (api : ExtApi) (st : Store)
    (npubOf : String → Except String String) (cache1 : Kind1Cache)
    (ins : List (String × Int)) (ev : Event) : EngineStep :=
  match check_filter_rules api st npubOf cache1 ev with
  | .error e => ⟨.error e, cache1, ins, []⟩
  | .ok (true, ls) => ⟨.ok true, cache1, ins, ls⟩
  | .ok (false, _) =>
    if ev.kind == 6 || ev.kind == 7 then
      match is_filter_bypass st npubOf ev.pubkey with
      | .error e => ⟨.error e, cache1, ins, []⟩
      | .ok true => ⟨.ok false, cache1, ins, []⟩
      | .ok false =>
        match ev.first_e_tag_event_id with
        | none => ⟨.ok false, cache1, ins, []⟩
        | some target_id =>
          match cache_get cache1 target_id with
          | none => ⟨.ok false, cache1, ins, []⟩
          | some target_created_at =>
            if target_created_at == ev.created_at then
              match log_rejection_result st with
              | .error e => ⟨.error e, cache1, ins, []⟩
              | .ok _ => ⟨.ok true, cache1, ins, [.bot_filter]⟩
            else ⟨.ok false, cache1, ins, []⟩
    else ⟨.ok false, cache1, ins, []⟩

/-- The event-processing part of `should_drop_backend_text_with_ip`,
starting at the npub-ban check (after the `["EVENT", _, event]` frame has
been decoded). -/
def process_backend_event (api : ExtApi) (st : Store)
    (npubOf : String → Except String String) (cache : Kind1Cache) (ev : Event) :
    EngineStep :=
  match is_npub_banned st npubOf ev.pubkey with
  | .error e => ⟨.error e, cache, [], []⟩
  | .ok true =>
    match log_rejection_result st with
    | .error e => ⟨.error e, cache, [], []⟩
    | .ok _ => ⟨.ok true, cache, [], [.banned_npub]⟩
  | .ok false =>
    match st.kind_blacklisted ev.kind with
    | .error e => ⟨.error e, cache, [], []⟩
    | .ok true =>
      match log_rejection_result st with
      | .error e => ⟨.error e, cache, [], []⟩
      | .ok _ => ⟨.ok true, cache, [], [.kind_blacklist]⟩
    | .ok false =>
      if ev.kind == 1 then
        process_after_cache api st npubOf
          (cache_insert cache ev.id ev.created_at) [(ev.id, ev.created_at)] ev
      else process_after_cache api st npubOf cache [] ev

/-- `should_drop_backend_text_with_ip` (`jp` stands for
`serde_json::from_str`; the ip argument only decorates log rows and is not
modelled). -/
def should_drop_backend_text (api : ExtApi) (st : Store)
    (npubOf : String → Except String String)
    (jp : String → Except String Json) (cache : Kind1Cache) (text : String) :
    EngineStep :=
  match jp text with
  | .error _ => ⟨.ok false, cache, [], []⟩
  | .ok v =>
    match v.asArr with
    | none => ⟨.ok false, cache, [], []⟩
    | some arr =>
      if (arr.head?.bind Json.asStr) == some "EVENT" then
        match arr.get? 2 with
        | none => ⟨.error "EVENT missing event", cache, [], []⟩
        | some evv =>
          match eventFromJson evv with
          | .error e => ⟨.error ("parse event: " ++ e), cache, [], []⟩
          | .ok ev => process_backend_event api st npubOf cache ev
      else ⟨.ok false, cache, [], []⟩

/-- Engine state over a sequence of upstream text frames: the final cache
and the concatenated insert trace (one engine instance per connection,
starting from the given cache). -/
def run_engine (api : ExtApi) (st : Store)
    (npubOf : String → Except String String)
    (jp : String → Except String Json) (cache : Kind1Cache) :
    List String → Kind1Cache × List (String × Int)
  | [] => (cache, [])
  | t :: ts =>
    let s := should_drop_backend_text api st npubOf jp cache t
    let r := run_engine api st npubOf jp s.cache ts
    (r.1, s.inserts ++ r.2)

/-! ## WebSocket proxy pipeline (`src/proxy/ws_proxy.rs`)

One step of each directional flow on a text frame, with the database pool
present and the connection-log row id `log_id` (counter updates are issued
only when the row exists; their `let _ =` results are ignored by the code,
so a delta of 1 models one issued `UPDATE`). -/

/-- `is_post_allowed` (`flags & 1 == 1`; a failing npub conversion is
caught and yields `Ok(false)`). -/
def is_post_allowed (st : Store) (npubOf : String → Except String String)
    (pubkey_hex : String) : Except String Bool :=
  match npubOf pubkey_hex with
  | .error _ => .ok false
  | .ok npub =>
    match st.safelist_flags npub with
    | .error e => .error e
    | .ok row => .ok ((row.map (fun flags => flags.land 1 == 1)).getD false)

/-- The NOTICE payload injected on a blocked EVENT,
`serde_json::json!(["NOTICE", "blocked: not in safelist"]).to_string()`. -/
def notice_blocked : String := "[\"NOTICE\",\"blocked: not in safelist\"]"

/-- Effects of one client→upstream text frame. -/
structure C2BStep where
  to_backend : List String
  to_client : List String
  rejected_delta : Nat
  logs : List RejectReason
deriving Repr

/-- The `Message::Text` arm of the client→upstream flow: safelist-enforce
EVENTs, forward everything else verbatim. -/
def c2b_text_step (st : Store) (npubOf : String → Except String String)
    (jp : String → Except String Json) (log_id : Option Int) (text : String) :
    C2BStep :=
  match parse_client_msg jp text with
  | .ok (.event ev) =>
    let allowed := match is_post_allowed st npubOf ev.pubkey with
      | .ok a => a
      | .error _ => false
    if !allowed then
      let logs : List RejectReason := match st.log_result with
        | .ok _ => [.not_in_safelist]
        | .error _ => []
      ⟨[], [notice_blocked], if log_id.isSome then 1 else 0, logs⟩
    else ⟨[text], [], 0, []⟩
  | _ => ⟨[text], [], 0, []⟩

/-- Effects of one upstream→client text frame. -/
structure B2CStep where
  to_client : List String
  event_delta : Nat
  rejected_delta : Nat
  cache : Kind1Cache
  logs : List RejectReason
deriving Repr

/-- The `TungMessage::Text` arm of the upstream→client flow: consult the
filter engine (an engine error is logged and the frame forwarded), then do
the `OK` accounting and enqueue the frame. -/
def b2c_text_step (api : ExtApi) (st : Store)
    (npubOf : String → Except String String)
    (jp : String → Except String Json) (log_id : Option Int)
    (cache : Kind1Cache) (text : String) : B2CStep :=
  let s := should_drop_backend_text api st npubOf jp cache text
  match s.res with
  | .ok true => ⟨[], 0, 0, s.cache, s.logs⟩
  | _ =>
    let deltas : Nat × Nat :=
      match jp text with
      | .ok (.arr arr) =>
        if (arr.head?.bind Json.asStr) == some "OK" then
          match (arr.get? 1).bind Json.asStr with
          | some _ =>
            let accepted := ((arr.get? 2).bind Json.asBool).getD false
            if log_id.isSome then (if accepted then (1, 0) else (0, 1))
            else (0, 0)
          | none => (0, 0)
        else (0, 0)
      | _ => (0, 0)
    ⟨[text], deltas.1, deltas.2, s.cache, s.logs⟩

/-! ## Concrete instances used by witnesses and counterexamples -/

/-- A trivial external API: every regex compiles, nothing matches, the npub
encoding fails (none of the concrete filters below touch these fields). -/
def trivial_api : ExtApi := ⟨fun _ => .ok (), fun _ _ => false, fun _ => none⟩

/-- A concrete stand-in for `pubkey_hex_to_npub` that always succeeds. -/
def npubOf0 : String → Except String String := fun s => .ok ("npub1" ++ s)

/-- A store with no safelist rows, no kind blacklist, no rules, and working
rejection logging. -/
def st_open : Store :=
  ⟨fun _ => .ok none, fun _ => .ok none, fun _ => .ok false, [], .ok ()⟩

/-! ## C8 -/

/-- C8: lexing the source `kind === 6` fails with message
`Expected \x27==\x27 but got \x27=\x27` at byte position 7, the offset of
the third equals sign, and the whole parse therefore reports exactly that
error. -/
theorem c8_triple_equals_error :
    parseQuery "kind === 6" =
      .error ⟨"Expected \x27==\x27 but got \x27=\x27", 7⟩ := by
  rfl

/-! ## C10 -/

/-- The AST both overflowing and zero comparisons compile to. -/
def ast_created_at_gt_zero : QExpr :=
  .cond ⟨.simple "created_at", .gt, .num 0⟩

/-- C10: a decimal literal whose digit string exceeds `i64::MAX` lexes as
the number 0 rather than raising a lexical error (and a negative such
literal also lexes as 0), so `created_at > 99999999999999999999` parses and
compiles to exactly the filter `created_at > 0` and evaluates accordingly
on every event. -/
theorem c10_overflowing_literal_is_zero :
    (parseQuery "created_at > 99999999999999999999" =
        parseQuery "created_at > 0")
  ∧ (parseQuery "created_at > 99999999999999999999" =
        .ok ast_created_at_gt_zero)
  ∧ (∀ api : ExtApi,
        compileQuery api "created_at > 99999999999999999999" =
          .ok ⟨ast_created_at_gt_zero, []⟩)
  ∧ (∀ (api : ExtApi) (ev : Event) (cache : Kind1Cache),
        CompiledFilter.matches api ⟨ast_created_at_gt_zero, []⟩ ev cache =
          decide (ev.created_at > 0))
  ∧ (tokenize "-99999999999999999999" =
        .ok [⟨.num 0, 0, 21⟩, ⟨.eof, 21, 21⟩]) := by
  exact ⟨rfl, rfl, fun _ => rfl, fun _ _ _ => rfl, rfl⟩

/-! ## C5 -/

/-- C5: `validate` reports `valid == true` exactly when `compile` succeeds
on the same source, and on failure it carries the error message and byte
position of the compile error. -/
theorem c5_validate_iff_compile :
    ∀ (api : ExtApi) (src : String),
      ((validateQuery api src).valid = true ↔
        ∃ f, compileQuery api src = .ok f)
    ∧ (∀ e : ParseError, compileQuery api src = .error e →
        (validateQuery api src).error = some e.message ∧
        (validateQuery api src).position = some e.position) := by
  intro api src
  unfold validateQuery compileQuery
  cases hp : parseQuery src with
  | error e => simp [validation_failure]
  | ok ast =>
    cases hc : CompiledFilter.compile api ast with
    | error e => simp [validation_failure, hc]
    | ok f => simp [validation_success, hc]

/-- C5 witness: on the lexically invalid source `kind === 6`, `validate`
reports the compile error message and its position. -/
theorem c5_witness :
    (validateQuery trivial_api "kind === 6").error =
      some "Expected \x27==\x27 but got \x27=\x27" ∧
    (validateQuery trivial_api "kind === 6").position = some 7 :=
  (c5_validate_iff_compile trivial_api "kind === 6").2
    ⟨"Expected \x27==\x27 but got \x27=\x27", 7⟩ rfl

/-! ## C9 -/

/-- C9: a `not_in` condition whose right-hand value is not a list evaluates
to true exactly when the field resolves (false only on an absent field),
while `in` with a non-list right-hand value always evaluates to false, so
`not_in` is not the pointwise negation of `in` on absent fields or non-list
operands. -/
theorem c9_not_in_non_list :
    ∀ (api : ExtApi) (rc : List String) (c : QCondition) (ev : Event)
      (cache : Kind1Cache),
      (c.op = .notInOp → c.value.is_list = false →
        evaluate_condition api rc c ev cache =
          (get_field_value api c.field ev cache).isSome)
    ∧ (c.op = .inOp → c.value.is_list = false →
        evaluate_condition api rc c ev cache = false) := by
  intro api rc c ev cache
  obtain ⟨fld, op, v⟩ := c
  constructor
  · intro hop hl
    subst hop
    unfold evaluate_condition
    cases hf : get_field_value api fld ev cache with
    | none => rfl
    | some f =>
      simp only [Option.isSome]
      unfold compare
      cases v <;> simp_all [QValue.is_list]
  · intro hop hl
    subst hop
    unfold evaluate_condition
    cases hf : get_field_value api fld ev cache with
    | none => rfl
    | some f =>
      unfold compare
      cases v <;> simp_all [QValue.is_list]

/-- A concrete event for the C9 witness. -/
def ev_pat : Event := ⟨"idX", "pkX", 100, 1, [["e", "A"]], "hello", "sg"⟩

/-- C9 witness: on a resolving field (`kind`) with the non-list value `5`,
`not_in` evaluates to true and `in` to false. -/
theorem c9_witness :
    evaluate_condition trivial_api [] ⟨.simple "kind", .notInOp, .num 5⟩
      ev_pat [] = true ∧
    evaluate_condition trivial_api [] ⟨.simple "kind", .inOp, .num 5⟩
      ev_pat [] = false := by
  constructor
  · have h := (c9_not_in_non_list trivial_api []
      ⟨.simple "kind", .notInOp, .num 5⟩ ev_pat []).1 rfl rfl
    rw [h]; rfl
  · exact (c9_not_in_non_list trivial_api []
      ⟨.simple "kind", .inOp, .num 5⟩ ev_pat []).2 rfl rfl

/-! ## C6 -/

/-- The DSL source proposed by the spec for the legacy bot rule. -/
def src_bot_dsl : String :=
  "kind in [6,7] AND created_at == referenced_created_at"

/-- The AST that `src_bot_dsl` parses to. -/
def ast_bot_dsl : QExpr :=
  .and (.cond ⟨.simple "kind", .inOp, .list [.num 6, .num 7]⟩)
       (.cond ⟨.simple "created_at", .eq, .field .referencedCreatedAt⟩)

/-- The hard-coded legacy bot condition of
`should_drop_backend_text_with_ip` (engine.rs lines 213–227), bypass and
logging aside: the event kind is 6 or 7 and its first `e`-tag references a
cached kind-1 id whose stored `created_at` equals the event's own. -/
def legacy_bot_condition (ev : Event) (cache : Kind1Cache) : Bool :=
  (ev.kind == 6 || ev.kind == 7) &&
    (match ev.first_e_tag_event_id with
     | none => false
     | some target_id =>
       match cache_get cache target_id with
       | none => false
       | some target_created_at => target_created_at == ev.created_at)

theorem int_beq_comm (a b : Int) : (a == b) = (b == a) := by
  by_cases h : a = b
  · subst h; rfl
  · have h' : ¬b = a := fun hh => h hh.symm
    simp [h, h']

set_option maxHeartbeats 1000000 in
/-- C6: the compiled DSL filter for
`kind in [6,7] AND created_at == referenced_created_at` matches an event
against a kind-1 cache exactly when the hard-coded legacy bot condition
holds. -/
theorem c6_dsl_equals_legacy :
    ∀ api : ExtApi,
      compileQuery api src_bot_dsl = .ok ⟨ast_bot_dsl, []⟩
    ∧ ∀ (ev : Event) (cache : Kind1Cache),
        CompiledFilter.matches api ⟨ast_bot_dsl, []⟩ ev cache =
          legacy_bot_condition ev cache := by
  intro api
  refine ⟨rfl, fun ev cache => ?_⟩
  have hL : CompiledFilter.matches api ⟨ast_bot_dsl, []⟩ ev cache =
      ((ev.kind == 6 || (ev.kind == 7 || false)) &&
        compare_eq api (.fnum ev.created_at) (.field .referencedCreatedAt)
          ev cache) := rfl
  rw [hL]
  have hR : compare_eq api (.fnum ev.created_at) (.field .referencedCreatedAt)
      ev cache =
      (match ev.first_e_tag_event_id.bind (cache_get cache) with
       | some b => ev.created_at == b
       | none => false) := by
    cases hc : ev.first_e_tag_event_id.bind (cache_get cache) with
    | none => simp [compare_eq, get_field_value, hc]
    | some b => simp [compare_eq, get_field_value, hc]
  rw [hR]
  unfold legacy_bot_condition
  cases h1 : ev.first_e_tag_event_id with
  | none => simp
  | some tid =>
    cases h2 : cache_get cache tid with
    | none => simp [h2]
    | some tca => simp [h2, int_beq_comm ev.created_at tca]

/-! ## C1 -/

/-- C1: a client text frame decoding as an EVENT whose author has no
safelist row, or whose row has the `POST_ALLOWED` bit (value 1) clear, is
never forwarded to the upstream; exactly one
`["NOTICE","blocked: not in safelist"]` frame is enqueued to the client,
the rejection is logged as `not_in_safelist`, and the connection row's
`rejected_event_count` is incremented by 1 for the attempt. -/
theorem c1_safelist_publish_block :
    ∀ (st : Store) (npubOf : String → Except String String)
      (jp : String → Except String Json) (text : String) (ev : Event)
      (np : String) (lid : Int),
      parse_client_msg jp text = .ok (.event ev) →
      npubOf ev.pubkey = .ok np →
      (st.safelist_flags np = .ok none ∨
        ∃ fl, st.safelist_flags np = .ok (some fl) ∧ fl.land 1 = 0) →
      st.log_result = .ok () →
      c2b_text_step st npubOf jp (some lid) text =
        ⟨[], [notice_blocked], 1, [.not_in_safelist]⟩ := by
  intro st npubOf jp text ev np lid hparse hnp hflags hlog
  have hallow : is_post_allowed st npubOf ev.pubkey = .ok false := by
    unfold is_post_allowed
    rcases hflags with h | ⟨fl, h, hbit⟩
    · simp [hnp, h]
    · simp [hnp, h, hbit]
  unfold c2b_text_step
  simp [hparse, hallow, hlog]

/-- A concrete client EVENT frame and its JSON parse for the C1/C4
witnesses. -/
def ev_w : Event := ⟨"E1", "PK1", 10, 1, [], "hi", "s"⟩

def ev_w_json : Json :=
  .obj [("id", .str "E1"), ("pubkey", .str "PK1"), ("created_at", .num 10),
        ("kind", .num 1), ("tags", .arr []), ("content", .str "hi"),
        ("sig", .str "s")]

def c1_text : String :=
  "[\"EVENT\",\x7b\"id\":\"E1\",\"pubkey\":\"PK1\",\"created_at\":10,\"kind\":1,\"tags\":[],\"content\":\"hi\",\"sig\":\"s\"\x7d]"

/-- A concrete JSON parser mapping the witness frames to their parse
results (as `serde_json::from_str` would). -/
def jp_w : String → Except String Json := fun s =>
  if s == c1_text then .ok (.arr [.str "EVENT", ev_w_json])
  else .error "unmodelled input"

/-- C1 witness: the author of `ev_w` has no safelist row in `st_open`, so
the frame is blocked with one NOTICE, one rejection log and one counter
increment. -/
theorem c1_witness :
    c2b_text_step st_open npubOf0 jp_w (some 1) c1_text =
      ⟨[], [notice_blocked], 1, [.not_in_safelist]⟩ :=
  c1_safelist_publish_block st_open npubOf0 jp_w c1_text ev_w "npub1PK1" 1
    rfl rfl (Or.inl rfl) rfl

/-! ## C4 -/

/-- C4: store-error handling — the publish path fails closed and the
forwarding path fails open.  If the safelist (`POST_ALLOWED`) lookup for a
client EVENT errors, the EVENT is blocked exactly as if not allowed (no
forward, one NOTICE, one rejection log, one counter increment); if the
filter-engine check of an upstream frame errors, the frame is still
forwarded to the client. -/
theorem c4_fail_closed_fail_open :
    ∀ (api : ExtApi) (st : Store) (npubOf : String → Except String String)
      (jp : String → Except String Json) (text : String) (log_id : Option Int)
      (cache : Kind1Cache),
      (∀ (ev : Event) (np : String) (e : String) (lid : Int),
        parse_client_msg jp text = .ok (.event ev) →
        npubOf ev.pubkey = .ok np →
        st.safelist_flags np = .error e →
        st.log_result = .ok () →
        log_id = some lid →
        c2b_text_step st npubOf jp log_id text =
          ⟨[], [notice_blocked], 1, [.not_in_safelist]⟩)
    ∧ (∀ e : String,
        (should_drop_backend_text api st npubOf jp cache text).res = .error e →
        (b2c_text_step api st npubOf jp log_id cache text).to_client =
          [text]) := by
  intro api st npubOf jp text log_id cache
  constructor
  · intro ev np e lid hparse hnp hflags hlog hlid
    have hallow : is_post_allowed st npubOf ev.pubkey = .error e := by
      unfold is_post_allowed
      simp [hnp, hflags]
    unfold c2b_text_step
    simp [hparse, hallow, hlog, hlid]
  · intro e hres
    unfold b2c_text_step
    simp [hres]

/-- Store whose safelist-flags query fails (for the C4 witness). -/
def st_flags_err : Store :=
  ⟨fun _ => .error "db down", fun _ => .ok none, fun _ => .ok false, [],
   .ok ()⟩

/-- An upstream frame whose decoded array is `["EVENT","sub"]` (no event
object), which makes the engine check fail. -/
def c4b_text : String := "[\"EVENT\",\"sub\"]"

def jp_c4b : String → Except String Json := fun s =>
  if s == c4b_text then .ok (.arr [.str "EVENT", .str "sub"])
  else .error "unmodelled input"

/-- C4 witness: with a failing safelist query the concrete EVENT frame is
blocked, and with a malformed upstream EVENT frame the engine check errors
but the frame is still delivered to the client. -/
theorem c4_witness :
    c2b_text_step st_flags_err npubOf0 jp_w (some 2) c1_text =
      ⟨[], [notice_blocked], 1, [.not_in_safelist]⟩ ∧
    (b2c_text_step trivial_api st_flags_err npubOf0 jp_c4b none []
      c4b_text).to_client = [c4b_text] := by
  constructor
  · exact (c4_fail_closed_fail_open trivial_api st_flags_err npubOf0 jp_w
      c1_text (some 2) []).1 ev_w "npub1PK1" "db down" 2 rfl rfl rfl rfl rfl
  · exact (c4_fail_closed_fail_open trivial_api st_flags_err npubOf0 jp_c4b
      c4b_text none []).2 "EVENT missing event" rfl

/-! ## C2 -/

/-- C2: for an engine-processed event of kind 6 or 7 whose author passes
the ban and blacklist checks, has no `FILTER_BYPASS`, and matches no DSL
rule, the legacy fallback applies: if the first `e`-tag references a cached
id whose stored `created_at` equals the event's own, the engine logs
`bot_filter` and drops; if the event has no `e`-tag, or the referenced id
is absent from the cache, the engine passes and logs nothing. -/
theorem c2_legacy_bot_fallback :
    ∀ (api : ExtApi) (st : Store) (npubOf : String → Except String String)
      (cache : Kind1Cache) (ev : Event),
      (ev.kind = 6 ∨ ev.kind = 7) →
      is_npub_banned st npubOf ev.pubkey = .ok false →
      st.kind_blacklisted ev.kind = .ok false →
      check_filter_rules api st npubOf cache ev = .ok (false, []) →
      is_filter_bypass st npubOf ev.pubkey = .ok false →
      st.log_result = .ok () →
      (∀ tid, ev.first_e_tag_event_id = some tid →
        cache_get cache tid = some ev.created_at →
        process_backend_event api st npubOf cache ev =
          ⟨.ok true, cache, [], [.bot_filter]⟩)
    ∧ (ev.first_e_tag_event_id = none →
        process_backend_event api st npubOf cache ev =
          ⟨.ok false, cache, [], []⟩)
    ∧ (∀ tid, ev.first_e_tag_event_id = some tid →
        cache_get cache tid = none →
        process_backend_event api st npubOf cache ev =
          ⟨.ok false, cache, [], []⟩) := by
  intro api st npubOf cache ev hkind hban hbl hrules hbyp hlog
  have hk1 : (ev.kind == 1) = false := by
    rcases hkind with h | h <;> simp [h]
  have hk67 : (ev.kind == 6 || ev.kind == 7) = true := by
    rcases hkind with h | h <;> simp [h]
  refine ⟨?_, ?_, ?_⟩
  · intro tid htag hget
    unfold process_backend_event process_after_cache
    simp [hban, hbl, hk1, hrules, hk67, hbyp, htag, hget, hlog,
      log_rejection_result]
  · intro htag
    unfold process_backend_event process_after_cache
    simp [hban, hbl, hk1, hrules, hk67, hbyp, htag]
  · intro tid htag hget
    unfold process_backend_event process_after_cache
    simp [hban, hbl, hk1, hrules, hk67, hbyp, htag, hget]

/-- A concrete kind-7 reaction whose first `e`-tag references the cached
kind-1 id `A` with matching `created_at` (scenario 1 of §8). -/
def ev_react : Event := ⟨"B", "P", 123, 7, [["e", "A"]], "", ""⟩

/-- C2 witness: with id `A` cached at `created_at = 123`, the concrete
kind-7 event is dropped and logged as `bot_filter`. -/
theorem c2_witness :
    process_backend_event trivial_api st_open npubOf0 [("A", 123)] ev_react =
      ⟨.ok true, [("A", 123)], [], [.bot_filter]⟩ :=
  (c2_legacy_bot_fallback trivial_api st_open npubOf0 [("A", 123)] ev_react
    (Or.inr rfl) rfl rfl rfl rfl rfl).1 "A" rfl rfl

/-! ## C3 -/

/-- Helper: with the ban check passed, no later branch of the engine ever
logs `banned_npub`. -/
theorem check_rules_list_logs (api : ExtApi) (st : Store) (cache : Kind1Cache)
    (ev : Event) :
    ∀ (rules : List CachedRule) (r : Bool) (ls : List RejectReason),
      check_rules_list api st cache ev rules = .ok (r, ls) →
      ls = [] ∨ ∃ i, ls = [RejectReason.filter_rule i] := by
  intro rules
  induction rules with
  | nil =>
    intro r ls h
    simp [check_rules_list] at h
    exact Or.inl h.2
  | cons hd tl ih =>
    intro r ls h
    simp only [check_rules_list] at h
    split at h
    · split at h
      · simp at h
      · simp at h
        exact Or.inr ⟨hd.id, h.2.symm⟩
    · exact ih r ls h
theorem check_filter_rules_logs (api : ExtApi) (st : Store)
    (npubOf : String → Except String String) (cache : Kind1Cache) (ev : Event)
    (r : Bool) (ls : List RejectReason)
    (h : check_filter_rules api st npubOf cache ev = .ok (r, ls)) :
    ls = [] ∨ ∃ i, ls = [RejectReason.filter_rule i] := by
  unfold check_filter_rules at h
  split at h
  · simp at h
  · simp at h
    exact Or.inl h.2
  · exact check_rules_list_logs api st cache ev st.rules r ls h

/-- Helper: no branch of the tail after the cache step logs `banned_npub`. -/
theorem process_after_logs_no_banned (api : ExtApi) (st : Store)
    (npubOf : String → Except String String) (cache1 : Kind1Cache)
    (ins : List (String × Int)) (ev : Event) :
    ¬((process_after_cache api st npubOf cache1 ins ev).logs =
      [RejectReason.banned_npub]) := by
  unfold process_after_cache
  cases hcf : check_filter_rules api st npubOf cache1 ev with
  | error e => simp
  | ok p =>
    obtain ⟨b, ls⟩ := p
    cases b with
    | true =>
      rcases check_filter_rules_logs api st npubOf cache1 ev true ls hcf with
        h0 | ⟨i, h0⟩ <;> simp [h0]
    | false =>
      by_cases hk : (ev.kind == 6 || ev.kind == 7) = true
      · simp only [hk, if_true]
        cases hbyp : is_filter_bypass st npubOf ev.pubkey with
        | error e => simp
        | ok bb =>
          cases bb with
          | true => simp
          | false =>
            cases htag : ev.first_e_tag_event_id with
            | none => simp [htag]
            | some tid =>
              cases hget : cache_get cache1 tid with
              | none => simp [htag, hget]
              | some tca =>
                by_cases heq : (tca == ev.created_at) = true
                · cases hlr : log_rejection_result st with
                  | error e => simp [htag, hget, heq, hlr]
                  | ok u => simp [htag, hget, heq, hlr]
                · simp [htag, hget, heq]
      · simp [hk]

/-- Helper: once the ban check has passed, the engine never logs
`banned_npub` for this event. -/
theorem process_logs_no_banned (api : ExtApi) (st : Store)
    (npubOf : String → Except String String) (cache : Kind1Cache) (ev : Event)
    (hban : is_npub_banned st npubOf ev.pubkey = .ok false) :
    ¬((process_backend_event api st npubOf cache ev).logs =
      [RejectReason.banned_npub]) := by
  unfold process_backend_event
  rw [hban]
  cases hbl : st.kind_blacklisted ev.kind with
  | error e => simp
  | ok b =>
    cases b with
    | true =>
      cases hlr : log_rejection_result st with
      | error e => simp
      | ok u => simp
    | false =>
      by_cases hk1 : (ev.kind == 1) = true
      · simp only [hk1, if_true]
        exact process_after_logs_no_banned api st npubOf _ _ ev
      · simp only [Bool.not_eq_true] at hk1
        simp only [hk1, Bool.false_eq_true, if_false]
        exact process_after_logs_no_banned api st npubOf _ _ ev

/-- C3 (amended): the engine drops an event with rejection reason
`banned_npub` exactly when the author's safelist row exists and its
dedicated `banned` column equals 1 — not the flags bitset; absence of a row
means not banned. -/
theorem c3_banned_is_column :
    ∀ (api : ExtApi) (st : Store) (npubOf : String → Except String String)
      (cache : Kind1Cache) (ev : Event) (np : String) (b : Option Int),
      npubOf ev.pubkey = .ok np →
      st.safelist_banned np = .ok b →
      st.log_result = .ok () →
      (((process_backend_event api st npubOf cache ev).res = .ok true ∧
        (process_backend_event api st npubOf cache ev).logs =
          [RejectReason.banned_npub]) ↔ b = some 1) := by
  intro api st npubOf cache ev np b hnp hb hlog
  constructor
  · rintro ⟨hres, hlogs⟩
    by_contra hne
    have hban : is_npub_banned st npubOf ev.pubkey = .ok false := by
      unfold is_npub_banned
      cases b with
      | none => simp [hnp, hb]
      | some x =>
        have hx1 : ¬x = 1 := fun hh => hne (by rw [hh])
        simp [hnp, hb, hx1]
    exact process_logs_no_banned api st npubOf cache ev hban hlogs
  · intro hb1
    subst hb1
    have hban : is_npub_banned st npubOf ev.pubkey = .ok true := by
      unfold is_npub_banned
      simp [hnp, hb]
    constructor <;>
      (unfold process_backend_event
       simp [hban, hlog, log_rejection_result])

/-- Store whose safelist row for every npub has flags 4 (the claimed
`BANNED` bit) but `banned` column 0. -/
def st_flags4 : Store :=
  ⟨fun _ => .ok (some 4), fun _ => .ok (some 0), fun _ => .ok false, [],
   .ok ()⟩

/-- A plain kind-0 event. -/
def ev_plain : Event := ⟨"X", "P", 5, 0, [], "", ""⟩

/-- C3 counterexample: the author's safelist row has the claimed `BANNED`
bit (value 4) set in its flag bitset, yet the engine passes the event and
logs nothing — the code reads the dedicated `banned` column instead, so the
claimed iff fails at this input. -/
theorem c3_counterexample :
    st_flags4.safelist_flags "npub1P" = .ok (some 4) ∧
    Int.land 4 4 = 4 ∧
    process_backend_event trivial_api st_flags4 npubOf0 [] ev_plain =
      ⟨.ok false, [], [], []⟩ :=
  ⟨rfl, by decide, rfl⟩

/-- Store whose safelist row has flags 0 but `banned` column 1. -/
def st_banned1 : Store :=
  ⟨fun _ => .ok (some 0), fun _ => .ok (some 1), fun _ => .ok false, [],
   .ok ()⟩

/-- C3 witness: with the `banned` column 1 the event is dropped and logged
as `banned_npub`. -/
theorem c3_witness :
    (process_backend_event trivial_api st_banned1 npubOf0 [] ev_plain).res =
      .ok true ∧
    (process_backend_event trivial_api st_banned1 npubOf0 [] ev_plain).logs =
      [RejectReason.banned_npub] :=
  (c3_banned_is_column trivial_api st_banned1 npubOf0 [] ev_plain "npub1P"
    (some 1) rfl rfl rfl).mpr rfl

/-! ## C7 -/

theorem cache_get_cons (a : String) (b : Int) (t : Kind1Cache) (k : String) :
    cache_get ((a, b) :: t) k = if a = k then some b else cache_get t k := by
  by_cases h : a = k
  · subst h
    simp [cache_get, List.find?]
  · have hb : (a == k) = false := by simp [h]
    simp [cache_get, List.find?, hb, h]

theorem cache_get_insert (c : Kind1Cache) (k : String) (v : Int) (k' : String) :
    cache_get (cache_insert c k v) k' =
      if k = k' then some v else cache_get c k' := by
  induction c with
  | nil =>
    by_cases h : k = k'
    · subst h
      simp [cache_insert, cache_get, List.find?]
    · have hb : (k == k') = false := by simp [h]
      simp [cache_insert, cache_get, List.find?, hb, h]
  | cons hd tl ih =>
    obtain ⟨k0, v0⟩ := hd
    by_cases h0 : k0 = k
    · subst h0
      simp only [cache_insert, beq_self_eq_true, if_true]
      by_cases h : k0 = k' <;> simp [cache_get_cons, h]
    · have h0b : (k0 == k) = false := by simp [h0]
      simp only [cache_insert, h0b, Bool.false_eq_true, if_false]
      by_cases h : k0 = k'
      · have hkk : ¬k = k' := fun hh => h0 (hh.trans h.symm).symm
        simp [cache_get_cons, h, hkk]
      · simp [cache_get_cons, h, ih]

theorem process_after_cache_shape (api : ExtApi) (st : Store)
    (npubOf : String → Except String String) (cache1 : Kind1Cache)
    (ins : List (String × Int)) (ev : Event) :
    (process_after_cache api st npubOf cache1 ins ev).cache = cache1 ∧
    (process_after_cache api st npubOf cache1 ins ev).inserts = ins := by
  unfold process_after_cache
  repeat' split
  all_goals exact ⟨rfl, rfl⟩

theorem process_backend_event_shape (api : ExtApi) (st : Store)
    (npubOf : String → Except String String) (cache : Kind1Cache)
    (ev : Event) :
    ((process_backend_event api st npubOf cache ev).cache = cache ∧
     (process_backend_event api st npubOf cache ev).inserts = []) ∨
    ((process_backend_event api st npubOf cache ev).cache =
        cache_insert cache ev.id ev.created_at ∧
     (process_backend_event api st npubOf cache ev).inserts =
        [(ev.id, ev.created_at)]) := by
  unfold process_backend_event
  repeat' split
  all_goals first
    | exact Or.inl ⟨rfl, rfl⟩
    | exact Or.inl (process_after_cache_shape api st npubOf cache [] ev)
    | exact Or.inr (process_after_cache_shape api st npubOf
        (cache_insert cache ev.id ev.created_at) [(ev.id, ev.created_at)] ev)

theorem should_drop_shape (api : ExtApi) (st : Store)
    (npubOf : String → Except String String)
    (jp : String → Except String Json) (cache : Kind1Cache) (text : String) :
    ((should_drop_backend_text api st npubOf jp cache text).cache = cache ∧
     (should_drop_backend_text api st npubOf jp cache text).inserts = []) ∨
    ∃ i a,
      (should_drop_backend_text api st npubOf jp cache text).cache =
        cache_insert cache i a ∧
      (should_drop_backend_text api st npubOf jp cache text).inserts =
        [(i, a)] := by
  unfold should_drop_backend_text
  repeat' split
  all_goals try exact Or.inl ⟨rfl, rfl⟩
  all_goals rename_i ev _
  all_goals
    rcases process_backend_event_shape api st npubOf cache ev with
      ⟨h1, h2⟩ | ⟨h1, h2⟩
  · exact Or.inl ⟨h1, h2⟩
  · exact Or.inr ⟨ev.id, ev.created_at, h1, h2⟩

theorem run_engine_mem (api : ExtApi) (st : Store)
    (npubOf : String → Except String String)
    (jp : String → Except String Json) :
    ∀ (ts : List String) (cache : Kind1Cache) (k : String) (v : Int),
      cache_get (run_engine api st npubOf jp cache ts).1 k = some v →
      (k, v) ∈ (run_engine api st npubOf jp cache ts).2 ∨
        cache_get cache k = some v := by
  intro ts
  induction ts with
  | nil =>
    intro cache k v h
    simp only [run_engine] at h
    exact Or.inr h
  | cons t ts ih =>
    intro cache k v h
    simp only [run_engine] at h ⊢
    rcases ih (should_drop_backend_text api st npubOf jp cache t).cache k v h
      with hm | hc
    · exact Or.inl (List.mem_append.mpr (Or.inr hm))
    · rcases should_drop_shape api st npubOf jp cache t with
        ⟨h1, h2⟩ | ⟨i, a, h1, h2⟩
      · rw [h1] at hc
        exact Or.inr hc
      · rw [h1, cache_get_insert] at hc
        by_cases hik : i = k
        · simp only [hik, if_true] at hc
          have hv : a = v := by
            injection hc
          left
          apply List.mem_append.mpr
          left
          rw [h2, hik, hv]
          exact List.mem_singleton.mpr rfl
        · simp only [hik, if_false] at hc
          exact Or.inr hc

theorem length_filter_le_one (l : List (String × Int)) (k : String)
    (h : (l.map Prod.fst).Nodup) :
    (l.filter (fun p => p.1 == k)).length ≤ 1 := by
  induction l with
  | nil => simp
  | cons hd tl ih =>
    simp only [List.map_cons, List.nodup_cons] at h
    by_cases hk : hd.1 = k
    · have hnil : tl.filter (fun p => p.1 == k) = [] := by
        apply List.filter_eq_nil_iff.mpr
        intro p hp
        simp only [beq_iff_eq]
        intro hpk
        exact h.1 (hk ▸ hpk ▸ List.mem_map_of_mem Prod.fst hp)
      have hhd : (hd.1 == k) = true := by simp [hk]
      simp [List.filter_cons, hhd, hnil]
    · have hhd : (hd.1 == k) = false := by simp [hk]
      simp only [List.filter_cons, hhd, Bool.false_eq_true, if_false]
      exact ih h.2

/-- C7 (amended): every processed kind-1 event inserts its
`(id, created_at)` pair into the cache; whenever the processed kind-1
events of a connection carry pairwise-distinct ids, each key is inserted
exactly once (at most one trace entry per key), and unconditionally the
value stored under a key is the `created_at` carried by an inserted event
whose id equals that key. -/
theorem c7_cache_trace :
    ∀ (api : ExtApi) (st : Store) (npubOf : String → Except String String)
      (jp : String → Except String Json) (ts : List String),
      (((run_engine api st npubOf jp [] ts).2.map Prod.fst).Nodup →
        ∀ k, ((run_engine api st npubOf jp [] ts).2.filter
          (fun p => p.1 == k)).length ≤ 1)
    ∧ (∀ k v, cache_get (run_engine api st npubOf jp [] ts).1 k = some v →
        (k, v) ∈ (run_engine api st npubOf jp [] ts).2) := by
  intro api st npubOf jp ts
  constructor
  · intro hnodup k
    exact length_filter_le_one _ k hnodup
  · intro k v h
    rcases run_engine_mem api st npubOf jp ts [] k v h with hm | hc
    · exact hm
    · simp [cache_get, List.find?] at hc

/-- Three concrete upstream kind-1 frames: ids `A` (created_at 1), `A`
(created_at 2) and `B` (created_at 2). -/
def j7 (i : String) (ca : Int) : Json :=
  .arr [.str "EVENT", .str "s",
    .obj [("id", .str i), ("pubkey", .str "P"), ("created_at", .num ca),
          ("kind", .num 1), ("tags", .arr []), ("content", .str ""),
          ("sig", .str "")]]

def t7a : String :=
  "[\"EVENT\",\"s\",\x7b\"id\":\"A\",\"pubkey\":\"P\",\"created_at\":1,\"kind\":1,\"tags\":[],\"content\":\"\",\"sig\":\"\"\x7d]"

def t7b : String :=
  "[\"EVENT\",\"s\",\x7b\"id\":\"A\",\"pubkey\":\"P\",\"created_at\":2,\"kind\":1,\"tags\":[],\"content\":\"\",\"sig\":\"\"\x7d]"

def t7c : String :=
  "[\"EVENT\",\"s\",\x7b\"id\":\"B\",\"pubkey\":\"P\",\"created_at\":2,\"kind\":1,\"tags\":[],\"content\":\"\",\"sig\":\"\"\x7d]"

def jp_c7 : String → Except String Json := fun s =>
  if s == t7a then .ok (j7 "A" 1)
  else if s == t7b then .ok (j7 "A" 2)
  else if s == t7c then .ok (j7 "B" 2)
  else .error "unmodelled input"

/-- C7 counterexample: two processed kind-1 events with the same id `A`
(and different `created_at`) insert the key `A` twice — the insert trace
has two entries for the key, where the claim demands exactly one per
distinct id. -/
theorem c7_counterexample :
    (run_engine trivial_api st_open npubOf0 jp_c7 [] [t7a, t7b]).2 =
      [("A", 1), ("A", 2)] ∧
    ((run_engine trivial_api st_open npubOf0 jp_c7 [] [t7a, t7b]).2.filter
      (fun p => p.1 == "A")).length = 2 :=
  ⟨rfl, rfl⟩

/-- C7 witness: on a trace with distinct ids (`A` then `B`) the key `A` is
inserted at most once and the stored pair appears in the insert trace. -/
theorem c7_witness :
    ((run_engine trivial_api st_open npubOf0 jp_c7 [] [t7a, t7c]).2.filter
      (fun p => p.1 == "A")).length ≤ 1 ∧
    ("A", 1) ∈ (run_engine trivial_api st_open npubOf0 jp_c7 [] [t7a, t7c]).2 := by
  constructor
  · exact (c7_cache_trace trivial_api st_open npubOf0 jp_c7 [t7a, t7c]).1
      (by decide) "A"
  · exact (c7_cache_trace trivial_api st_open npubOf0 jp_c7 [t7a, t7c]).2
      "A" 1 (by decide)

end NostrProxy
